import Mathlib

/-!
# polly `util` package: path resolution and PID file

A shallow embedding of `src/util/util.go`.  The package keeps its state in
package-level variables (`prefix` and seven cached paths); here they are the
fields of `State`, and every function that reads or writes them takes the
state and returns the new one.  The operating system (directory creation,
`unix.Access`, the `gotil` file helpers, `os.Getpid`) is not part of the
package: it is the parameter `OS W` over an arbitrary world type `W`, so the
results below hold for every behaviour of these calls.  The calls the package
makes are recorded, in order, in the ghost field `State.trace`.  For what the
PID file holds, the two `gotil` file helpers are also given as functions over
an in-memory file system, `FileSys`.  The log-file writers, the `install`
wrappers and `PrintVersion` are not embedded.
-/

namespace util

/-! ## Constants (util.go, lines 17-33) -/

def logDirPathSuffix : String := "/var/log/polly"
def etcDirPathSuffix : String := "/etc/polly"
def binDirPathSuffix : String := "/usr/bin"
def runDirPathSuffix : String := "/var/run/polly"
def libDirPathSuffix : String := "/var/lib/polly"

/-- UnitFilePath is the path to the SystemD unit file. -/
def UnitFilePath : String := "/etc/systemd/system/polly.service"
/-- InitFilePath is the path to the SystemV init script. -/
def InitFilePath : String := "/etc/init.d/polly"
/-- EnvFileName is the name of the environment file. -/
def EnvFileName : String := "polly.env"

/-- The access mode `unix.R_OK`. -/
def R_OK : Nat := 4
/-- The access mode `unix.W_OK`. -/
def W_OK : Nat := 2
/-- The permission bits `0755` passed to `os.MkdirAll`. -/
def dirPerm : Nat := 0o755

/-! ## The operating system and the observable effects -/

/-- An error value returned by an operating-system call (Go `error` coming
from the `os`, `unix` or `gotil` packages), kept as its message. -/
structure OSError where
  msg : String
  deriving DecidableEq, Repr

/-- The calls with an outside effect that the package makes. -/
inductive Effect where
  /-- The call `os.MkdirAll(path, perm)`. -/
  | mkdirAll (path : String) (perm : Nat)
  /-- A logrus warning: `log.WithError(err).WithField(k, v).Warning(msg)`. -/
  | warning (msg : String) (err : Option OSError) (fields : List (String × String))
  /-- The call `gotil.WriteStringToFile(text, path)`. -/
  | writeStringToFile (text : String) (path : String)
  /-- The call `gotil.ReadFileToString(path)`. -/
  | readFileToString (path : String)
  deriving DecidableEq, Repr

/-- True for `os.MkdirAll` calls. -/
def Effect.isMkdirAll : Effect → Bool
  | .mkdirAll _ _ => true
  | _ => false

/-- True for logged warnings. -/
def Effect.isWarning : Effect → Bool
  | .warning _ _ _ => true
  | _ => false

/-- The operating system the package runs on, over a world `W` (the file
system and the process table).  An error result `none` is Go's `nil`. -/
structure OS (W : Type) where
  /-- The function `os.MkdirAll(path, perm)`. -/
  mkdirAll : String → Nat → W → Option OSError × W
  /-- The function `unix.Access(path, mode)`. -/
  access : String → Nat → W → Option OSError
  /-- The function `gotil.WriteStringToFile(text, path)`. -/
  writeStringToFile : String → String → W → Option OSError × W
  /-- The function `gotil.ReadFileToString(path)`. -/
  readFileToString : String → W → String × Option OSError
  /-- The function `os.Getpid()`. -/
  getpid : W → Int

/-! ## Package state (util.go, lines 35-49) -/

/-- The package-level variables, the world, and the trace of effects. -/
structure State (W : Type) where
  thisExeDir : String
  thisExeName : String
  thisExeAbsPath : String
  /-- The variable `prefix` of the source. -/
  prefix_ : String
  binDirPath : String
  binFilePath : String
  logDirPath : String
  libDirPath : String
  runDirPath : String
  etcDirPath : String
  pidFilePath : String
  world : W
  trace : List Effect

/-- The function `init`: `prefix = os.Getenv("POLLY_HOME")`, the executable's
path parts from `gotil.GetThisPathParts()`, every other variable at its zero
value.  `env` is the value of `POLLY_HOME`. -/
def init {W : Type} (env : String) (parts : String × String × String) (w : W) : State W :=
  { thisExeDir := parts.1
    thisExeName := parts.2.1
    thisExeAbsPath := parts.2.2
    prefix_ := env
    binDirPath := ""
    binFilePath := ""
    logDirPath := ""
    libDirPath := ""
    runDirPath := ""
    etcDirPath := ""
    pidFilePath := ""
    world := w
    trace := [] }

/-- GetPrefix gets the root path. -/
def GetPrefix {W : Type} (s : State W) : String :=
  s.prefix_

/-- Prefix sets the root path. -/
def Prefix {W : Type} (p : String) (s : State W) : State W :=
  if p = "" ∨ p = "/" then
    s
  else
    { s with
      binDirPath := ""
      binFilePath := ""
      logDirPath := ""
      libDirPath := ""
      runDirPath := ""
      etcDirPath := ""
      pidFilePath := ""
      prefix_ := p }

/-- IsPrefixed returns a flag indicating whether a prefix value is set. -/
def IsPrefixed {W : Type} (s : State W) : Bool :=
  !(s.prefix_ = "" ∨ s.prefix_ = "/")

/-- The function `writable`: `unix.Access(path, unix.W_OK) == nil`. -/
def writable {W : Type} (os : OS W) (path : String) (w : W) : Bool :=
  (os.access path W_OK w).isNone

/-- The function `readable`: `unix.Access(path, unix.R_OK) == nil`. -/
def readable {W : Type} (os : OS W) (path : String) (w : W) : Bool :=
  (os.access path R_OK w).isNone

/-- Appends effects to the trace. -/
def State.emit {W : Type} (s : State W) (es : List Effect) : State W :=
  { s with trace := s.trace ++ es }

/-- EtcDirPath returns the path to the etc directory. -/
def EtcDirPath {W : Type} (os : OS W) (s : State W) : String × State W :=
  if s.etcDirPath = "" then
    let path := s.prefix_ ++ etcDirPathSuffix
    let s1 := { s with etcDirPath := path }
    let r := os.mkdirAll path dirPerm s1.world
    let s2 := ({ s1 with world := r.2 }).emit [Effect.mkdirAll path dirPerm]
    let s3 :=
      if r.1 ≠ none ∨ !readable os s2.etcDirPath s2.world then
        s2.emit [Effect.warning "could not access etc dir" r.1 []]
      else s2
    (s3.etcDirPath, s3)
  else
    (s.etcDirPath, s)

/-- RunDirPath returns the path to the run directory. -/
def RunDirPath {W : Type} (os : OS W) (s : State W) : String × State W :=
  if s.runDirPath = "" then
    let path := s.prefix_ ++ runDirPathSuffix
    let s1 := { s with runDirPath := path }
    let r := os.mkdirAll path dirPerm s1.world
    let s2 := ({ s1 with world := r.2 }).emit [Effect.mkdirAll path dirPerm]
    let s3 :=
      if r.1 ≠ none ∨ !readable os s2.runDirPath s2.world
          ∨ !writable os s2.runDirPath s2.world then
        s2.emit [Effect.warning "missing r|w access run dir" r.1
          [("runDirPath", s2.runDirPath)]]
      else s2
    (s3.runDirPath, s3)
  else
    (s.runDirPath, s)

/-- LogDirPath returns the path to the log directory. -/
def LogDirPath {W : Type} (os : OS W) (s : State W) : String × State W :=
  if s.logDirPath = "" then
    let path := s.prefix_ ++ logDirPathSuffix
    let s1 := { s with logDirPath := path }
    let r := os.mkdirAll path dirPerm s1.world
    let s2 := ({ s1 with world := r.2 }).emit [Effect.mkdirAll path dirPerm]
    let s3 :=
      if r.1 ≠ none ∨ !readable os s2.logDirPath s2.world
          ∨ !writable os s2.logDirPath s2.world then
        s2.emit [Effect.warning "missing r|w access log dir" r.1
          [("logDirPath", s2.logDirPath)]]
      else s2
    (s3.logDirPath, s3)
  else
    (s.logDirPath, s)

/-- LibDirPath returns the path to the lib directory; the result of
`os.MkdirAll` is discarded. -/
def LibDirPath {W : Type} (os : OS W) (s : State W) : String × State W :=
  if s.libDirPath = "" then
    let path := s.prefix_ ++ libDirPathSuffix
    let s1 := { s with libDirPath := path }
    let r := os.mkdirAll path dirPerm s1.world
    let s2 := ({ s1 with world := r.2 }).emit [Effect.mkdirAll path dirPerm]
    (s2.libDirPath, s2)
  else
    (s.libDirPath, s)

/-- LibFilePath returns the path to a file inside the lib directory. -/
def LibFilePath {W : Type} (os : OS W) (fileName : String) (s : State W) : String × State W :=
  let r := LibDirPath os s
  (r.1 ++ "/" ++ fileName, r.2)

/-- BinDirPath returns the path to the bin directory; the result of
`os.MkdirAll` is discarded. -/
def BinDirPath {W : Type} (os : OS W) (s : State W) : String × State W :=
  if s.binDirPath = "" then
    let path := s.prefix_ ++ binDirPathSuffix
    let s1 := { s with binDirPath := path }
    let r := os.mkdirAll path dirPerm s1.world
    let s2 := ({ s1 with world := r.2 }).emit [Effect.mkdirAll path dirPerm]
    (s2.binDirPath, s2)
  else
    (s.binDirPath, s)

/-- PidFilePath returns the path to the PID file. -/
def PidFilePath {W : Type} (os : OS W) (s : State W) : String × State W :=
  if s.pidFilePath = "" then
    let r := RunDirPath os s
    let s1 := { r.2 with pidFilePath := r.1 ++ "/polly.pid" }
    (s1.pidFilePath, s1)
  else
    (s.pidFilePath, s)

/-- BinFilePath returns the path to the executable. -/
def BinFilePath {W : Type} (os : OS W) (s : State W) : String × State W :=
  if s.binFilePath = "" then
    let r := BinDirPath os s
    let s1 := { r.2 with binFilePath := r.1 ++ "/polly" }
    (s1.binFilePath, s1)
  else
    (s.binFilePath, s)

/-- EtcFilePath returns the path to a file inside the etc directory. -/
def EtcFilePath {W : Type} (os : OS W) (fileName : String) (s : State W) : String × State W :=
  let r := EtcDirPath os s
  (r.1 ++ "/" ++ fileName, r.2)

/-- LogFilePath returns the path to a file inside the log directory. -/
def LogFilePath {W : Type} (os : OS W) (fileName : String) (s : State W) : String × State W :=
  let r := LogDirPath os s
  (r.1 ++ "/" ++ fileName, r.2)

/-! ## PID file (util.go, lines 220-244) -/

/-- The ASCII digit for `d < 10`: the byte `'0' + d`. -/
def digitChar (d : Nat) : Char :=
  Char.ofNat (48 + d)

/-- The digit loop of Go's integer formatting: the decimal digits of `u`, most
significant first, written in front of `acc`. -/
def formatBits (u : Nat) (acc : List Char) : List Char :=
  if 10 ≤ u then formatBits (u / 10) (digitChar (u % 10) :: acc)
  else digitChar u :: acc
termination_by u
decreasing_by omega

/-- The call `fmt.Sprintf("%d", n)`: the decimal text of `n`, with a leading
minus sign when `n` is negative. -/
def sprintfD (n : Int) : String :=
  if n < 0 then String.mk ('-' :: formatBits n.natAbs [])
  else String.mk (formatBits n.toNat [])

/-- The width of Go's `int` on the platforms polly is built for. -/
def intSize : Nat := 64

/-- The two causes of a `*strconv.NumError`. -/
inductive NumErrorKind where
  /-- The cause `strconv.ErrSyntax`. -/
  | errSyntax
  /-- The cause `strconv.ErrRange`. -/
  | errRange
  deriving DecidableEq, Repr

/-- The type `strconv.NumError`. -/
structure NumError where
  func : String
  num : String
  err : NumErrorKind
  deriving DecidableEq, Repr

/-- True for the bytes `'0'` to `'9'`. -/
def isDigit (c : Char) : Bool :=
  decide (48 ≤ c.toNat) && decide (c.toNat ≤ 57)

/-- The value of a digit byte: `c - '0'`. -/
def digitVal (c : Char) : Nat :=
  c.toNat - 48

/-- The digit loop of the Go standard library's `strconv.ParseUint(s, 10, 64)`,
with `acc` the value read so far: a byte that is not a digit ends it with
`ErrSyntax`, a value that does not fit 64 bits ends it with `ErrRange`, in
the order the bytes come. -/
def parseUint : List Char → Nat → Except NumErrorKind Nat
  | [], acc => .ok acc
  | c :: cs, acc =>
    if isDigit c then
      if 2 ^ 64 ≤ acc * 10 + digitVal c then .error .errRange
      else parseUint cs (acc * 10 + digitVal c)
    else .error .errSyntax

/-- The Go standard library's `strconv.Atoi`, that is `ParseInt(s, 10, 0)`
converted to `int`: an optional sign `+` or `-`, then one or more decimal
digits; `ErrSyntax` (with 0) for any other text, `ErrRange` (with the nearest
`int`) when the value does not fit in `intSize` bits. -/
def Atoi (s : String) : Int × Option NumError :=
  match s.data with
  | [] => (0, some ⟨"Atoi", s, .errSyntax⟩)
  | c :: cs =>
    let body := if c = '-' ∨ c = '+' then cs else c :: cs
    if body = [] then (0, some ⟨"Atoi", s, .errSyntax⟩)
    else
      match parseUint body 0 with
      | .error .errSyntax => (0, some ⟨"Atoi", s, .errSyntax⟩)
      | .error .errRange =>
        if c = '-' then (-(2 ^ (intSize - 1) : Int), some ⟨"Atoi", s, .errRange⟩)
        else ((2 ^ (intSize - 1) : Int) - 1, some ⟨"Atoi", s, .errRange⟩)
      | .ok n =>
        if c = '-' then
          if 2 ^ (intSize - 1) < n then (-(2 ^ (intSize - 1) : Int), some ⟨"Atoi", s, .errRange⟩)
          else (-(n : Int), none)
        else
          if 2 ^ (intSize - 1) ≤ n then ((2 ^ (intSize - 1) : Int) - 1, some ⟨"Atoi", s, .errRange⟩)
          else ((n : Int), none)

/-- A Go `error` value as `ReadPidFile` can return it: the error of the file
read, or the `*strconv.NumError` of the parse. -/
inductive Error where
  /-- An error of the operating system or of the file helpers. -/
  | os (e : OSError)
  /-- A `*strconv.NumError`. -/
  | num (e : NumError)
  deriving DecidableEq, Repr

/-- WritePidFile writes the current process ID to the PID file. -/
def WritePidFile {W : Type} (os : OS W) (pid : Int) (s : State W) : Option OSError × State W :=
  let pid := if pid < 0 then os.getpid s.world else pid
  let text := sprintfD pid
  let r := PidFilePath os s
  let w := os.writeStringToFile text r.1 r.2.world
  (w.1, ({ r.2 with world := w.2 }).emit [Effect.writeStringToFile text r.1])

/-- ReadPidFile reads the PID from the PID file. -/
def ReadPidFile {W : Type} (os : OS W) (s : State W) : (Int × Option Error) × State W :=
  let r := PidFilePath os s
  let rd := os.readFileToString r.1 r.2.world
  let s1 := r.2.emit [Effect.readFileToString r.1]
  match rd.2 with
  | some e => ((-1, some (Error.os e)), s1)
  | none =>
    let a := Atoi rd.1
    match a.2 with
    | some e => ((-1, some (Error.num e)), s1)
    | none => ((a.1, none), s1)

/-! ## ContainsString (util.go, lines 256-264) -/

/-- ContainsString searches an array for a matching string. -/
def ContainsString : List String → String → Bool
  | [], _ => false
  | a :: s, e => if a = e then true else ContainsString s e

/-! ## Vocabulary for the statements -/

/-- The five directory kinds. -/
inductive DirKind where
  | etc
  | run
  | log
  | lib
  | bin
  deriving DecidableEq, Repr

/-- The fixed suffix of each directory kind. -/
def DirKind.suffix : DirKind → String
  | .etc => etcDirPathSuffix
  | .run => runDirPathSuffix
  | .log => logDirPathSuffix
  | .lib => libDirPathSuffix
  | .bin => binDirPathSuffix

/-- The directory resolver of each kind. -/
def resolve {W : Type} (os : OS W) : DirKind → State W → String × State W
  | .etc => EtcDirPath os
  | .run => RunDirPath os
  | .log => LogDirPath os
  | .lib => LibDirPath os
  | .bin => BinDirPath os

/-- The cache variable of each directory kind. -/
def State.cache {W : Type} (s : State W) : DirKind → String
  | .etc => s.etcDirPath
  | .run => s.runDirPath
  | .log => s.logDirPath
  | .lib => s.libDirPath
  | .bin => s.binDirPath

/-- The number of `os.MkdirAll` calls in a trace. -/
def mkdirCount (t : List Effect) : Nat :=
  t.countP Effect.isMkdirAll

/-- The calls that read or change the prefix and the caches. -/
inductive Op where
  | Prefix (p : String)
  | EtcDirPath
  | RunDirPath
  | LogDirPath
  | LibDirPath
  | BinDirPath
  | PidFilePath
  | BinFilePath
  deriving DecidableEq, Repr

/-- The state after one call. -/
def step {W : Type} (os : OS W) (s : State W) : Op → State W
  | .Prefix p => Prefix p s
  | .EtcDirPath => (EtcDirPath os s).2
  | .RunDirPath => (RunDirPath os s).2
  | .LogDirPath => (LogDirPath os s).2
  | .LibDirPath => (LibDirPath os s).2
  | .BinDirPath => (BinDirPath os s).2
  | .PidFilePath => (PidFilePath os s).2
  | .BinFilePath => (BinFilePath os s).2

/-- The state after a sequence of calls, first call first. -/
def run {W : Type} (os : OS W) (s : State W) (ops : List Op) : State W :=
  ops.foldl (step os) s

/-- No cache is stale: each one is empty or holds the path derived from the
current prefix. -/
def Fresh {W : Type} (s : State W) : Prop :=
  (s.etcDirPath = "" ∨ s.etcDirPath = s.prefix_ ++ "/etc/polly")
  ∧ (s.runDirPath = "" ∨ s.runDirPath = s.prefix_ ++ "/var/run/polly")
  ∧ (s.logDirPath = "" ∨ s.logDirPath = s.prefix_ ++ "/var/log/polly")
  ∧ (s.libDirPath = "" ∨ s.libDirPath = s.prefix_ ++ "/var/lib/polly")
  ∧ (s.binDirPath = "" ∨ s.binDirPath = s.prefix_ ++ "/usr/bin")
  ∧ (s.pidFilePath = "" ∨ s.pidFilePath = s.prefix_ ++ "/var/run/polly/polly.pid")
  ∧ (s.binFilePath = "" ∨ s.binFilePath = s.prefix_ ++ "/usr/bin/polly")

/-- A file system held in memory: every directory can be created and
accessed, a file holds the text of the last write to its path, and the
process ID is 4242. -/
def memOS : OS (List (String × String)) where
  mkdirAll := fun _ _ w => (none, w)
  access := fun _ _ _ => none
  writeStringToFile := fun text path w => (none, (path, text) :: w)
  readFileToString := fun path w =>
    match w.lookup path with
    | some t => (t, none)
    | none => ("", some ⟨"no such file or directory"⟩)
  getpid := fun _ => 4242

/-- An operating system that refuses every call. -/
def denyOS : OS Unit where
  mkdirAll := fun _ _ w => (some ⟨"permission denied"⟩, w)
  access := fun _ _ _ => some ⟨"permission denied"⟩
  writeStringToFile := fun _ _ w => (some ⟨"permission denied"⟩, w)
  readFileToString := fun _ _ => ("", some ⟨"permission denied"⟩)
  getpid := fun _ => 1

/-- The text after an optional leading sign `+` or `-`. -/
def signedBody : List Char → List Char
  | [] => []
  | c :: cs => if c = '+' ∨ c = '-' then cs else c :: cs

/-- The number that a run of decimal digits spells, most significant first. -/
def decimalValue (ds : List Char) : Nat :=
  ds.foldl (fun a c => a * 10 + digitVal c) 0

/-- A valid base-10 integer, in the words of the specification: an optional
sign, then at least one character, all of them decimal digits, spelling a
number that fits Go's `int` (`-2^63` to `2^63 - 1`). -/
def validBase10Int (t : String) : Bool :=
  decide (signedBody t.data ≠ []) && (signedBody t.data).all isDigit
    && (if t.data.head? = some '-' then decide (decimalValue (signedBody t.data) ≤ 2 ^ (intSize - 1))
        else decide (decimalValue (signedBody t.data) < 2 ^ (intSize - 1)))

/-- The integer that a valid base-10 text spells. -/
def base10Value (t : String) : Int :=
  if t.data.head? = some '-' then -(decimalValue (signedBody t.data) : Int)
  else (decimalValue (signedBody t.data) : Int)

/-! ## The file system and the `gotil` file helpers

`WritePidFile` and `ReadPidFile` reach the file system through
`gotil.WriteStringToFile` and `gotil.ReadFileToString` of the library
`github.com/akutz/gotil`.  A Go string is a string of bytes; a `String` below
stands for such a byte string, one `Char` per byte. -/

/-- What a path names: a regular file, with its contents and whether it may be
opened for reading (`r`) and for writing (`w`), or a directory. -/
inductive Node where
  | file (content : String) (r : Bool) (w : Bool)
  | dir (r : Bool)
  deriving DecidableEq, Repr

/-- A file system: the node at each path (the first entry of a path counts),
and the paths at which no file can be created (no parent directory, or no
permission). -/
structure FileSys where
  nodes : List (String × Node)
  noCreate : List String
  deriving DecidableEq, Repr

/-- The file system with the node `n` at `path`, in place of what was there. -/
def FileSys.put (fs : FileSys) (path : String) (n : Node) : FileSys :=
  { fs with nodes := (path, n) :: fs.nodes.filter (fun e => decide (e.1 ≠ path)) }

/-- The call `os.Open(path)`: the node opened for reading, or the error. -/
def openRead (path : String) (fs : FileSys) : Except OSError Node :=
  match fs.nodes.lookup path with
  | none => .error ⟨"no such file or directory"⟩
  | some (.file c r w) => if r then .ok (.file c r w) else .error ⟨"permission denied"⟩
  | some (.dir r) => if r then .ok (.dir r) else .error ⟨"permission denied"⟩

/-- The constant `bufio.MaxScanTokenSize`. -/
def maxScanTokenSize : Nat := 64 * 1024

/-- The search of `bufio.ScanLines`: the bytes before the first newline, or
all the bytes when there is none; `acc` holds the bytes passed, last first. -/
def scanLine : List Char → List Char → List Char
  | [], acc => acc.reverse
  | c :: cs, acc => if c = '\n' then acc.reverse else scanLine cs (c :: acc)

/-- The function `dropCR` of `bufio`: drops one trailing carriage return. -/
def dropCR (data : List Char) : List Char :=
  if data.getLast? = some '\r' then data.dropLast else data

/-- The calls `scanner.Scan()` and `scanner.Text()` of a new `bufio.Scanner`
over a regular file with the given contents: the first line, or `none` when
`Scan` returns false (nothing to read, or a line that does not fit the
scanner's buffer). -/
def scanText (content : List Char) : Option (List Char) :=
  if content = [] then none
  else if maxScanTokenSize ≤ (scanLine content []).length then none
  else some (dropCR (scanLine content []))

/-- The function `gotil.ReadFileToString(path)`: `os.Open(path)`, whose error
is returned; then one `Scan` of a `bufio.Scanner` over the file, returning
its text, or the empty string and no error when `Scan` returns false (reading
a directory fails, and that error is not looked at). -/
def ReadFileToString (path : String) (fs : FileSys) : String × Option OSError :=
  match openRead path fs with
  | .error e => ("", some e)
  | .ok (.dir _) => ("", none)
  | .ok (.file c _ _) =>
    match scanText c.data with
    | none => ("", none)
    | some t => (String.mk t, none)

/-- The call `f.WriteString(text)` on a file opened without `O_TRUNC` and
without `O_APPEND`: the bytes of `text` replace the first bytes of the old
contents, and what lies beyond them stays.  The write to the open file is
taken to write every byte. -/
def writeAtStart (text : String) (old : String) : String :=
  String.mk (text.data ++ old.data.drop text.data.length)

/-- The function `gotil.WriteStringToFile(text, path)`:
`os.OpenFile(path, os.O_CREATE|os.O_WRONLY, 0644)`, whose error is returned;
then `f.WriteString(text)` and `nil`. -/
def WriteStringToFile (text : String) (path : String) (fs : FileSys) :
    Option OSError × FileSys :=
  match fs.nodes.lookup path with
  | none =>
    if path ∈ fs.noCreate then (some ⟨"no such file or directory"⟩, fs)
    else (none, fs.put path (Node.file text true true))
  | some (.dir _) => (some ⟨"is a directory"⟩, fs)
  | some (.file c r w) =>
    if w then (none, fs.put path (Node.file (writeAtStart text c) r w))
    else (some ⟨"permission denied"⟩, fs)

/-- The operating system `os` with the `gotil` file helpers over `FileSys`:
directory creation, access checks and the process ID are those of `os`. -/
def withGotil (os : OS FileSys) : OS FileSys :=
  { os with
    writeStringToFile := WriteStringToFile
    readFileToString := ReadFileToString }

/-- An operating system over `FileSys` where every directory can be created
and accessed and the process ID is 4242. -/
def plainOS : OS FileSys where
  mkdirAll := fun _ _ w => (none, w)
  access := fun _ _ _ => none
  writeStringToFile := WriteStringToFile
  readFileToString := ReadFileToString
  getpid := fun _ => 4242

/-- The initial state with `POLLY_HOME` unset, in a file system that holds
only the node `n` at the PID file path. -/
def pidFileState (n : Node) : State FileSys :=
  init "" ("/usr/bin", "polly", "/usr/bin/polly")
    { nodes := [("/var/run/polly/polly.pid", n)], noCreate := [] }

/-- The contents of the regular file at `path`, when there is one and it can
be opened for reading. -/
def openedContent (fs : FileSys) (path : String) : Option String :=
  match fs.nodes.lookup path with
  | some (.file c true _) => some c
  | _ => none

/-- The contents of the PID file when `ReadPidFile` opens it: those of the
regular file at `PidFilePath()`, or `none` when there is no such file or it
cannot be opened for reading. -/
def pidFileContent (os : OS FileSys) (s : State FileSys) : Option String :=
  openedContent (PidFilePath os s).2.world (PidFilePath os s).1

/-- True when `path` names a directory. -/
def isDirectory (fs : FileSys) (path : String) : Bool :=
  match fs.nodes.lookup path with
  | some (.dir _) => true
  | _ => false

/-- The first line of a file's contents: the bytes before the first newline,
without one trailing carriage return; taken as empty when that run of bytes
is 64 KiB or longer. -/
def firstLine (content : String) : String :=
  if maxScanTokenSize ≤ (content.data.takeWhile (fun c => decide (c ≠ '\n'))).length then ""
  else String.mk (dropCR (content.data.takeWhile (fun c => decide (c ≠ '\n'))))

/-- The initial state with `POLLY_HOME` unset, on the operating system that
refuses every call. -/
def denyStart : State Unit :=
  init "" ("/usr/bin", "polly", "/usr/bin/polly") ()

/-- The failure condition of a directory kind, in the words of the
specification: creating the directory `prefix + suffix` fails, or the
resulting path is not readable, or (for run and log) not writable. -/
def accessFailed {W : Type} (os : OS W) (k : DirKind) (s : State W) : Bool :=
  (os.mkdirAll (s.prefix_ ++ k.suffix) dirPerm s.world).1.isSome
    || !readable os (s.prefix_ ++ k.suffix) (os.mkdirAll (s.prefix_ ++ k.suffix) dirPerm s.world).2
    || (decide (k = DirKind.run ∨ k = DirKind.log)
        && !writable os (s.prefix_ ++ k.suffix)
            (os.mkdirAll (s.prefix_ ++ k.suffix) dirPerm s.world).2)

/-- A state whose caches hold paths of an older prefix `/old`. -/
def staleState : State Unit :=
  { thisExeDir := "/usr/bin"
    thisExeName := "polly"
    thisExeAbsPath := "/usr/bin/polly"
    prefix_ := "/old"
    binDirPath := "/old/usr/bin"
    binFilePath := "/old/usr/bin/polly"
    logDirPath := "/old/var/log/polly"
    libDirPath := "/old/var/lib/polly"
    runDirPath := "/old/var/run/polly"
    etcDirPath := "/old/etc/polly"
    pidFilePath := "/old/var/run/polly/polly.pid"
    world := ()
    trace := [] }

/-- The initial state with `POLLY_HOME` unset, on the in-memory file system. -/
def memStart : State (List (String × String)) :=
  init "" ("/usr/bin", "polly", "/usr/bin/polly") []

/-! ## Helper lemmas -/

theorem append_ne_empty (p t : String) (h : t ≠ "") : p ++ t ≠ "" := by
  intro hpt
  apply h
  have hd : (p ++ t).data = [] := by rw [hpt]
  rw [String.data_append] at hd
  have ht : t.data = [] := (List.append_eq_nil.mp hd).2
  exact String.ext ht

theorem suffix_ne_empty (k : DirKind) : k.suffix ≠ "" := by
  cases k <;> decide

theorem resolve_fst {W : Type} (os : OS W) (k : DirKind) (s : State W) :
    (resolve os k s).1 = if s.cache k = "" then s.prefix_ ++ k.suffix else s.cache k := by
  cases k <;>
    simp only [resolve, State.cache, DirKind.suffix, EtcDirPath, RunDirPath, LogDirPath,
      LibDirPath, BinDirPath, State.emit] <;>
    split <;> (try split) <;> rfl

theorem resolve_cache {W : Type} (os : OS W) (k : DirKind) (s : State W) :
    (resolve os k s).2.cache k = (resolve os k s).1 := by
  cases k <;>
    simp only [resolve, State.cache, EtcDirPath, RunDirPath, LogDirPath,
      LibDirPath, BinDirPath, State.emit] <;>
    split <;> (try split) <;> rfl

theorem resolve_cached {W : Type} (os : OS W) (k : DirKind) (s : State W)
    (h : s.cache k ≠ "") : resolve os k s = (s.cache k, s) := by
  cases k <;>
    simp only [resolve, State.cache, EtcDirPath, RunDirPath, LogDirPath,
      LibDirPath, BinDirPath] at h ⊢ <;>
    rw [if_neg h]

theorem resolve_fst_ne_empty {W : Type} (os : OS W) (k : DirKind) (s : State W) :
    (resolve os k s).1 ≠ "" := by
  rw [resolve_fst]
  split
  · exact append_ne_empty _ _ (suffix_ne_empty k)
  · assumption

theorem Prefix_valid {W : Type} (p : String) (s : State W) (hp1 : p ≠ "") (hp2 : p ≠ "/") :
    Prefix p s =
      { s with
        binDirPath := ""
        binFilePath := ""
        logDirPath := ""
        libDirPath := ""
        runDirPath := ""
        etcDirPath := ""
        pidFilePath := ""
        prefix_ := p } := by
  unfold Prefix
  rw [if_neg]
  intro h
  cases h with
  | inl h => exact hp1 h
  | inr h => exact hp2 h

theorem Prefix_valid_cache {W : Type} (p : String) (s : State W) (hp1 : p ≠ "")
    (hp2 : p ≠ "/") (k : DirKind) : (Prefix p s).cache k = "" := by
  rw [Prefix_valid p s hp1 hp2]
  cases k <;> rfl

theorem Prefix_valid_get {W : Type} (p : String) (s : State W) (hp1 : p ≠ "")
    (hp2 : p ≠ "/") : (Prefix p s).prefix_ = p := by
  rw [Prefix_valid p s hp1 hp2]

theorem resolve_after_Prefix {W : Type} (os : OS W) (s : State W) (p : String)
    (hp1 : p ≠ "") (hp2 : p ≠ "/") (k : DirKind) :
    (resolve os k (Prefix p s)).1 = p ++ k.suffix := by
  rw [resolve_fst, if_pos (Prefix_valid_cache p s hp1 hp2 k), Prefix_valid_get p s hp1 hp2]

/-- The trace after a resolver call is the trace before it followed by at most
one `os.MkdirAll` call. -/
theorem resolve_trace {W : Type} (os : OS W) (k : DirKind) (s : State W) :
    ∃ es, (resolve os k s).2.trace = s.trace ++ es ∧ mkdirCount es ≤ 1 := by
  have h0 : ∃ es, s.trace = s.trace ++ es ∧ mkdirCount es ≤ 1 :=
    ⟨[], (List.append_nil _).symm, by decide⟩
  have h1 : ∀ path, mkdirCount [Effect.mkdirAll path dirPerm] ≤ 1 := by
    intro path
    simp [mkdirCount, Effect.isMkdirAll]
  have h2 : ∀ path msg err fields,
      mkdirCount [Effect.mkdirAll path dirPerm, Effect.warning msg err fields] ≤ 1 := by
    intro path msg err fields
    simp [mkdirCount, Effect.isMkdirAll]
  cases k
  · simp only [resolve, EtcDirPath, State.emit]
    split
    · split
      · exact ⟨_, by simp only [List.append_assoc]; rfl, h2 _ _ _ _⟩
      · exact ⟨_, rfl, h1 _⟩
    · exact h0
  · simp only [resolve, RunDirPath, State.emit]
    split
    · split
      · exact ⟨_, by simp only [List.append_assoc]; rfl, h2 _ _ _ _⟩
      · exact ⟨_, rfl, h1 _⟩
    · exact h0
  · simp only [resolve, LogDirPath, State.emit]
    split
    · split
      · exact ⟨_, by simp only [List.append_assoc]; rfl, h2 _ _ _ _⟩
      · exact ⟨_, rfl, h1 _⟩
    · exact h0
  · simp only [resolve, LibDirPath, State.emit]
    split
    · exact ⟨_, rfl, h1 _⟩
    · exact h0
  · simp only [resolve, BinDirPath, State.emit]
    split
    · exact ⟨_, rfl, h1 _⟩
    · exact h0

theorem Fresh_resolve {W : Type} (os : OS W) (k : DirKind) (s : State W) (h : Fresh s) :
    Fresh (resolve os k s).2 := by
  obtain ⟨h1, h2, h3, h4, h5, h6, h7⟩ := h
  cases k
  · simp only [resolve, EtcDirPath, State.emit]
    split
    · split <;> exact ⟨Or.inr rfl, h2, h3, h4, h5, h6, h7⟩
    · exact ⟨h1, h2, h3, h4, h5, h6, h7⟩
  · simp only [resolve, RunDirPath, State.emit]
    split
    · split <;> exact ⟨h1, Or.inr rfl, h3, h4, h5, h6, h7⟩
    · exact ⟨h1, h2, h3, h4, h5, h6, h7⟩
  · simp only [resolve, LogDirPath, State.emit]
    split
    · split <;> exact ⟨h1, h2, Or.inr rfl, h4, h5, h6, h7⟩
    · exact ⟨h1, h2, h3, h4, h5, h6, h7⟩
  · simp only [resolve, LibDirPath, State.emit]
    split
    · exact ⟨h1, h2, h3, Or.inr rfl, h5, h6, h7⟩
    · exact ⟨h1, h2, h3, h4, h5, h6, h7⟩
  · simp only [resolve, BinDirPath, State.emit]
    split
    · exact ⟨h1, h2, h3, h4, Or.inr rfl, h6, h7⟩
    · exact ⟨h1, h2, h3, h4, h5, h6, h7⟩

theorem Fresh_Prefix {W : Type} (p : String) (s : State W) (h : Fresh s) :
    Fresh (Prefix p s) := by
  unfold Prefix
  split
  · exact h
  · exact ⟨Or.inl rfl, Or.inl rfl, Or.inl rfl, Or.inl rfl, Or.inl rfl, Or.inl rfl, Or.inl rfl⟩

theorem Fresh_PidFilePath {W : Type} (os : OS W) (s : State W) (h : Fresh s) :
    Fresh (PidFilePath os s).2 := by
  unfold PidFilePath
  split
  · have hf : Fresh (resolve os .run s).2 := Fresh_resolve os .run s h
    have hc : (resolve os .run s).2.runDirPath = (resolve os .run s).1 :=
      resolve_cache os .run s
    have hne : (resolve os .run s).1 ≠ "" := resolve_fst_ne_empty os .run s
    obtain ⟨h1, h2, h3, h4, h5, _, h7⟩ := hf
    have hrun : (RunDirPath os s).1 = (RunDirPath os s).2.prefix_ ++ "/var/run/polly" := by
      cases h2 with
      | inl h0 => exact absurd (hc ▸ h0) hne
      | inr h0 => exact hc ▸ h0
    refine ⟨h1, h2, h3, h4, h5, Or.inr ?_, h7⟩
    show (RunDirPath os s).1 ++ "/polly.pid" = _
    rw [hrun, String.append_assoc]
    rfl
  · exact h

theorem Fresh_BinFilePath {W : Type} (os : OS W) (s : State W) (h : Fresh s) :
    Fresh (BinFilePath os s).2 := by
  unfold BinFilePath
  split
  · have hf : Fresh (resolve os .bin s).2 := Fresh_resolve os .bin s h
    have hc : (resolve os .bin s).2.binDirPath = (resolve os .bin s).1 :=
      resolve_cache os .bin s
    have hne : (resolve os .bin s).1 ≠ "" := resolve_fst_ne_empty os .bin s
    obtain ⟨h1, h2, h3, h4, h5, h6, _⟩ := hf
    have hbin : (BinDirPath os s).1 = (BinDirPath os s).2.prefix_ ++ "/usr/bin" := by
      cases h5 with
      | inl h0 => exact absurd (hc ▸ h0) hne
      | inr h0 => exact hc ▸ h0
    refine ⟨h1, h2, h3, h4, h5, h6, Or.inr ?_⟩
    show (BinDirPath os s).1 ++ "/polly" = _
    rw [hbin, String.append_assoc]
    rfl
  · exact h

theorem Fresh_step {W : Type} (os : OS W) (s : State W) (op : Op) (h : Fresh s) :
    Fresh (step os s op) := by
  cases op with
  | Prefix p => exact Fresh_Prefix p s h
  | EtcDirPath => exact Fresh_resolve os .etc s h
  | RunDirPath => exact Fresh_resolve os .run s h
  | LogDirPath => exact Fresh_resolve os .log s h
  | LibDirPath => exact Fresh_resolve os .lib s h
  | BinDirPath => exact Fresh_resolve os .bin s h
  | PidFilePath => exact Fresh_PidFilePath os s h
  | BinFilePath => exact Fresh_BinFilePath os s h

theorem Fresh_run {W : Type} (os : OS W) (ops : List Op) (s : State W) (h : Fresh s) :
    Fresh (run os s ops) := by
  induction ops generalizing s with
  | nil => exact h
  | cons op rest ih => exact ih (step os s op) (Fresh_step os s op h)

/-! ### Decimal text -/

theorem digitChar_spec : ∀ d : Fin 10,
    isDigit (digitChar d.val) = true ∧ digitVal (digitChar d.val) = d.val := by
  decide

theorem isDigit_digitChar (d : Nat) (h : d < 10) : isDigit (digitChar d) = true :=
  (digitChar_spec ⟨d, h⟩).1

theorem digitVal_digitChar (d : Nat) (h : d < 10) : digitVal (digitChar d) = d :=
  (digitChar_spec ⟨d, h⟩).2

theorem isDigit_not_sign (c : Char) (h : isDigit c = true) : ¬ (c = '-' ∨ c = '+') := by
  intro hc
  cases hc with
  | inl h1 => subst h1; exact absurd h (by decide)
  | inr h1 => subst h1; exact absurd h (by decide)

theorem formatBits_acc (u : Nat) (acc : List Char) :
    formatBits u acc = formatBits u [] ++ acc := by
  induction u using Nat.strong_induction_on generalizing acc with
  | _ u ih =>
    rw [formatBits.eq_1 u acc, formatBits.eq_1 u []]
    by_cases h : 10 ≤ u
    · rw [if_pos h, if_pos h, ih (u / 10) (by omega) (digitChar (u % 10) :: acc),
        ih (u / 10) (by omega) [digitChar (u % 10)]]
      simp
    · rw [if_neg h, if_neg h]
      rfl

theorem parseUint_append (l1 l2 : List Char) (a : Nat) :
    parseUint (l1 ++ l2) a = (parseUint l1 a).bind (parseUint l2) := by
  induction l1 generalizing a with
  | nil => rfl
  | cons c cs ih =>
    simp only [List.cons_append, parseUint]
    split
    · split
      · rfl
      · exact ih _
    · rfl

theorem parseUint_formatBits (u : Nat) (hu : u < 2 ^ 64) :
    parseUint (formatBits u []) 0 = .ok u := by
  induction u using Nat.strong_induction_on with
  | _ u ih =>
    rw [formatBits.eq_1 u []]
    by_cases h : 10 ≤ u
    · have hval : u / 10 * 10 + u % 10 = u := by omega
      rw [if_pos h, formatBits_acc, parseUint_append, ih (u / 10) (by omega) (by omega)]
      simp only [Except.bind, parseUint, isDigit_digitChar (u % 10) (Nat.mod_lt u (by decide)),
        digitVal_digitChar (u % 10) (Nat.mod_lt u (by decide)), if_true, hval,
        if_neg (Nat.not_le.mpr hu)]
    · rw [if_neg h]
      have hval : 0 * 10 + u = u := by omega
      simp only [parseUint, isDigit_digitChar u (by omega), digitVal_digitChar u (by omega),
        if_true, hval, if_neg (Nat.not_le.mpr hu)]

theorem formatBits_head (u : Nat) :
    ∃ c cs, formatBits u [] = c :: cs ∧ isDigit c = true := by
  induction u using Nat.strong_induction_on with
  | _ u ih =>
    rw [formatBits.eq_1 u []]
    by_cases h : 10 ≤ u
    · rw [if_pos h, formatBits_acc]
      obtain ⟨c, cs, hcs, hc⟩ := ih (u / 10) (by omega)
      exact ⟨c, cs ++ [digitChar (u % 10)], by rw [hcs]; rfl, hc⟩
    · rw [if_neg h]
      exact ⟨_, _, rfl, isDigit_digitChar u (by omega)⟩

theorem Atoi_of_digits (s : String) (c : Char) (cs : List Char) (n : Nat)
    (hs : s.data = c :: cs) (hc : isDigit c = true)
    (hp : parseUint (c :: cs) 0 = .ok n) (hn : n < 2 ^ (intSize - 1)) :
    Atoi s = ((n : Int), none) := by
  have hsign : ¬ (c = '-' ∨ c = '+') := isDigit_not_sign c hc
  have hminus : ¬ c = '-' := fun h => hsign (Or.inl h)
  unfold Atoi
  simp only [hs, if_neg hsign, hp, if_neg hminus, if_neg (Nat.not_le.mpr hn)]
  simp

theorem Atoi_sprintfD (pid : Int) (h0 : 0 ≤ pid) (hmax : pid < 2 ^ (intSize - 1)) :
    Atoi (sprintfD pid) = (pid, none) := by
  obtain ⟨c, cs, hcs, hc⟩ := formatBits_head pid.toNat
  have hdata : (sprintfD pid).data = c :: cs := by
    unfold sprintfD
    rw [if_neg (not_lt.mpr h0)]
    exact hcs
  have hn : pid.toNat < 2 ^ (intSize - 1) := by
    have h1 := Int.toNat_of_nonneg h0
    have h2 : ((pid.toNat : Nat) : Int) < ((2 ^ (intSize - 1) : Nat) : Int) := by
      rw [h1]
      push_cast
      exact hmax
    exact_mod_cast h2
  have hp : parseUint (c :: cs) 0 = .ok pid.toNat := by
    rw [← hcs]
    exact parseUint_formatBits _ (lt_trans hn (by decide))
  rw [Atoi_of_digits (sprintfD pid) c cs pid.toNat hdata hc hp hn, Int.toNat_of_nonneg h0]

theorem foldl_digits_ge (ds : List Char) (a : Nat) :
    a ≤ ds.foldl (fun a c => a * 10 + digitVal c) a := by
  induction ds generalizing a with
  | nil => exact Nat.le_refl a
  | cons c cs ih =>
    simp only [List.foldl_cons]
    exact Nat.le_trans (by omega) (ih (a * 10 + digitVal c))

theorem parseUint_ok_iff (ds : List Char) (a v : Nat) (ha : a < 2 ^ 64) :
    parseUint ds a = .ok v ↔
      ds.all isDigit = true ∧ ds.foldl (fun a c => a * 10 + digitVal c) a = v ∧ v < 2 ^ 64 := by
  induction ds generalizing a with
  | nil =>
    simp only [parseUint, List.all_nil, List.foldl_nil, true_and, Except.ok.injEq]
    constructor
    · intro h
      exact ⟨h, h ▸ ha⟩
    · intro h
      exact h.1
  | cons c cs ih =>
    simp only [parseUint, List.all_cons, List.foldl_cons, Bool.and_eq_true]
    by_cases hc : isDigit c = true
    · rw [if_pos hc]
      by_cases hr : 2 ^ 64 ≤ a * 10 + digitVal c
      · rw [if_pos hr]
        constructor
        · intro h
          cases h
        · rintro ⟨_, hv, hlt⟩
          have := foldl_digits_ge cs (a * 10 + digitVal c)
          omega
      · rw [if_neg hr, ih (a * 10 + digitVal c) (Nat.not_le.mp hr)]
        simp only [hc, true_and]
    · rw [if_neg hc]
      constructor
      · intro h
        cases h
      · rintro ⟨⟨h, _⟩, _⟩
        exact absurd h hc

theorem Atoi_spec (t : String) :
    ((Atoi t).2 = none ↔ validBase10Int t = true)
    ∧ (validBase10Int t = true → (Atoi t).1 = base10Value t) := by
  have hlt : (2 : Nat) ^ (intSize - 1) < 2 ^ 64 := by decide
  have key : ∀ (body : List Char) (neg : Bool),
      (((match parseUint body 0 with
          | .error .errSyntax => ((0 : Int), some (⟨"Atoi", t, .errSyntax⟩ : NumError))
          | .error .errRange =>
            if neg = true then (-(2 ^ (intSize - 1) : Int), some ⟨"Atoi", t, .errRange⟩)
            else ((2 ^ (intSize - 1) : Int) - 1, some ⟨"Atoi", t, .errRange⟩)
          | .ok n =>
            if neg = true then
              if 2 ^ (intSize - 1) < n then
                (-(2 ^ (intSize - 1) : Int), some ⟨"Atoi", t, .errRange⟩)
              else (-(n : Int), none)
            else
              if 2 ^ (intSize - 1) ≤ n then
                ((2 ^ (intSize - 1) : Int) - 1, some ⟨"Atoi", t, .errRange⟩)
              else ((n : Int), none)).2 = none
        ↔ (body.all isDigit = true ∧
            (if neg = true then decimalValue body ≤ 2 ^ (intSize - 1)
             else decimalValue body < 2 ^ (intSize - 1))))
      ∧ ((body.all isDigit = true ∧
            (if neg = true then decimalValue body ≤ 2 ^ (intSize - 1)
             else decimalValue body < 2 ^ (intSize - 1))) →
          (match parseUint body 0 with
          | .error .errSyntax => ((0 : Int), some (⟨"Atoi", t, .errSyntax⟩ : NumError))
          | .error .errRange =>
            if neg = true then (-(2 ^ (intSize - 1) : Int), some ⟨"Atoi", t, .errRange⟩)
            else ((2 ^ (intSize - 1) : Int) - 1, some ⟨"Atoi", t, .errRange⟩)
          | .ok n =>
            if neg = true then
              if 2 ^ (intSize - 1) < n then
                (-(2 ^ (intSize - 1) : Int), some ⟨"Atoi", t, .errRange⟩)
              else (-(n : Int), none)
            else
              if 2 ^ (intSize - 1) ≤ n then
                ((2 ^ (intSize - 1) : Int) - 1, some ⟨"Atoi", t, .errRange⟩)
              else ((n : Int), none)).1
            = if neg = true then -(decimalValue body : Int) else (decimalValue body : Int))) := by
    intro body neg
    have hiff := fun v => parseUint_ok_iff body 0 v (by decide)
    cases hp : parseUint body 0 with
    | error k =>
      have hno : ¬ (body.all isDigit = true ∧
          (if neg = true then decimalValue body ≤ 2 ^ (intSize - 1)
           else decimalValue body < 2 ^ (intSize - 1))) := by
        rintro ⟨hall, hrange⟩
        have hv : decimalValue body < 2 ^ 64 := by
          cases neg
          · simp only [Bool.false_eq_true, if_false] at hrange
            omega
          · simp only [if_true] at hrange
            omega
        have := (hiff (decimalValue body)).mpr ⟨hall, rfl, hv⟩
        rw [hp] at this
        cases this
      refine ⟨⟨fun h => ?_, fun h => absurd h hno⟩, fun h => absurd h hno⟩
      cases k <;> cases neg <;> simp at h
    | ok n =>
      obtain ⟨hall, hval, _⟩ := (hiff n).mp hp
      have hval2 : decimalValue body = n := hval
      rw [hval2]
      cases neg
      · by_cases hr : 2 ^ (intSize - 1) ≤ n
        · simp [hall, hr, Nat.not_lt.mpr hr]
        · simp [hall, hr, Nat.not_le.mp hr]
      · by_cases hr : 2 ^ (intSize - 1) < n
        · simp [hall, hr, Nat.not_le.mpr hr]
        · simp [hall, hr, Nat.not_lt.mp hr]
  unfold validBase10Int base10Value Atoi
  cases hd : t.data with
  | nil => simp [signedBody]
  | cons c cs =>
    simp only [signedBody, List.head?_cons, Option.some.injEq]
    by_cases hm : c = '-'
    · subst hm
      by_cases hcs : cs = []
      · simp [hcs]
      · have hk := key cs true
        simp only [if_true] at hk
        simpa [hcs] using hk
    · by_cases hp : c = '+'
      · subst hp
        by_cases hcs : cs = []
        · simp [hcs]
        · have hk := key cs false
          simp only [Bool.false_eq_true, if_false] at hk
          simpa [hcs] using hk
      · have hk := key (c :: cs) false
        simp only [Bool.false_eq_true, if_false] at hk
        simpa [hm, hp] using hk

/-! ### The PID file path -/

theorem PidFilePath_cache {W : Type} (os : OS W) (s : State W) :
    (PidFilePath os s).2.pidFilePath = (PidFilePath os s).1 := by
  unfold PidFilePath
  split <;> rfl

theorem PidFilePath_ne_empty {W : Type} (os : OS W) (s : State W) :
    (PidFilePath os s).1 ≠ "" := by
  unfold PidFilePath
  split
  · exact append_ne_empty _ _ (by decide)
  · assumption

theorem PidFilePath_cached {W : Type} (os : OS W) (s : State W) (h : s.pidFilePath ≠ "") :
    PidFilePath os s = (s.pidFilePath, s) := by
  unfold PidFilePath
  rw [if_neg h]

theorem WritePidFile_snd {W : Type} (os : OS W) (pid : Int) (s : State W) :
    (WritePidFile os pid s).2 =
      { (PidFilePath os s).2 with
        world := (os.writeStringToFile (sprintfD (if pid < 0 then os.getpid s.world else pid))
          (PidFilePath os s).1 (PidFilePath os s).2.world).2
        trace := (PidFilePath os s).2.trace ++
          [Effect.writeStringToFile (sprintfD (if pid < 0 then os.getpid s.world else pid))
            (PidFilePath os s).1] } :=
  rfl

theorem PidFilePath_after_write {W : Type} (os : OS W) (pid : Int) (s : State W) :
    PidFilePath os (WritePidFile os pid s).2 = ((PidFilePath os s).1, (WritePidFile os pid s).2) := by
  have hc : (WritePidFile os pid s).2.pidFilePath = (PidFilePath os s).1 := by
    rw [WritePidFile_snd]
    exact PidFilePath_cache os s
  have hne : (WritePidFile os pid s).2.pidFilePath ≠ "" := by
    rw [hc]
    exact PidFilePath_ne_empty os s
  rw [PidFilePath_cached os _ hne, hc]

theorem ReadPidFile_fst {W : Type} (os : OS W) (s : State W) :
    (ReadPidFile os s).1 =
      match (os.readFileToString (PidFilePath os s).1 (PidFilePath os s).2.world).2 with
      | some e => (-1, some (Error.os e))
      | none =>
        match (Atoi (os.readFileToString (PidFilePath os s).1 (PidFilePath os s).2.world).1).2 with
        | some e => (-1, some (Error.num e))
        | none =>
          ((Atoi (os.readFileToString (PidFilePath os s).1 (PidFilePath os s).2.world).1).1, none) := by
  unfold ReadPidFile
  simp only
  split
  · rfl
  · split <;> rfl

/-! ### The file helpers -/

theorem scanLine_eq (l acc : List Char) :
    scanLine l acc = acc.reverse ++ l.takeWhile (fun c => decide (c ≠ '\n')) := by
  induction l generalizing acc with
  | nil => simp [scanLine]
  | cons c cs ih =>
    unfold scanLine
    by_cases h : c = '\n'
    · simp [h]
    · rw [if_neg h, ih]
      simp [List.takeWhile_cons, h]

theorem scanText_eq (c : String) :
    (match scanText c.data with
      | none => ""
      | some t => String.mk t) = firstLine c := by
  unfold scanText firstLine
  rw [scanLine_eq]
  simp only [List.reverse_nil, List.nil_append]
  by_cases h0 : c.data = []
  · simp [h0, dropCR, maxScanTokenSize]
  · rw [if_neg h0]
    by_cases hlen : maxScanTokenSize ≤ (c.data.takeWhile (fun c => decide (c ≠ '\n'))).length
    · rw [if_pos hlen, if_pos hlen]
    · rw [if_neg hlen, if_neg hlen]

theorem ReadFileToString_opened (path : String) (fs : FileSys) (c : String)
    (h : openedContent fs path = some c) : ReadFileToString path fs = (firstLine c, none) := by
  unfold openedContent at h
  unfold ReadFileToString openRead
  split at h
  · next c0 w0 hl =>
    cases h
    simp only [hl, if_true]
    rw [← scanText_eq]
    split <;> rfl
  · cases h

theorem ReadFileToString_unopened (path : String) (fs : FileSys)
    (h : openedContent fs path = none) (hnd : isDirectory fs path = false) :
    ∃ e, ReadFileToString path fs = ("", some e) := by
  unfold openedContent at h
  unfold isDirectory at hnd
  unfold ReadFileToString openRead
  cases hl : fs.nodes.lookup path with
  | none => exact ⟨_, rfl⟩
  | some n =>
    cases n with
    | dir r => simp [hl] at hnd
    | file c0 r w =>
      cases r with
      | true => simp [hl] at h
      | false => exact ⟨_, rfl⟩

/-! ## The claims -/

/-- C1: for every state and every prefix `p` other than `""` and `"/"`, after
`Prefix(p)` each of the five directory resolvers returns exactly `p` followed
by its fixed suffix, so the result begins with `p` and is not a value cached
before the call; the operating system `os` is arbitrary, so this holds
whatever `os.MkdirAll` and `unix.Access` answer. -/
theorem Prefix_then_resolve {W : Type} (os : OS W) (s : State W) (p : String)
    (hp1 : p ≠ "") (hp2 : p ≠ "/") :
    (EtcDirPath os (Prefix p s)).1 = p ++ "/etc/polly"
    ∧ (RunDirPath os (Prefix p s)).1 = p ++ "/var/run/polly"
    ∧ (LogDirPath os (Prefix p s)).1 = p ++ "/var/log/polly"
    ∧ (LibDirPath os (Prefix p s)).1 = p ++ "/var/lib/polly"
    ∧ (BinDirPath os (Prefix p s)).1 = p ++ "/usr/bin"
    ∧ ∀ k : DirKind, ∃ t, (resolve os k (Prefix p s)).1 = p ++ t :=
  ⟨resolve_after_Prefix os s p hp1 hp2 .etc,
   resolve_after_Prefix os s p hp1 hp2 .run,
   resolve_after_Prefix os s p hp1 hp2 .log,
   resolve_after_Prefix os s p hp1 hp2 .lib,
   resolve_after_Prefix os s p hp1 hp2 .bin,
   fun k => ⟨k.suffix, resolve_after_Prefix os s p hp1 hp2 k⟩⟩

/-- C1 at the prefix `/opt/polly`, from a state with every cache filled and an
operating system that refuses every call. -/
theorem Prefix_then_resolve_witness :
    ("/opt/polly" : String) ≠ "" ∧ ("/opt/polly" : String) ≠ "/"
    ∧ (EtcDirPath denyOS (Prefix "/opt/polly" staleState)).1 = "/opt/polly" ++ "/etc/polly"
    ∧ (RunDirPath denyOS (Prefix "/opt/polly" staleState)).1 = "/opt/polly" ++ "/var/run/polly"
    ∧ (LogDirPath denyOS (Prefix "/opt/polly" staleState)).1 = "/opt/polly" ++ "/var/log/polly"
    ∧ (LibDirPath denyOS (Prefix "/opt/polly" staleState)).1 = "/opt/polly" ++ "/var/lib/polly"
    ∧ (BinDirPath denyOS (Prefix "/opt/polly" staleState)).1 = "/opt/polly" ++ "/usr/bin"
    ∧ ∀ k : DirKind, ∃ t, (resolve denyOS k (Prefix "/opt/polly" staleState)).1
        = "/opt/polly" ++ t :=
  ⟨by decide, by decide,
   Prefix_then_resolve denyOS staleState "/opt/polly" (by decide) (by decide)⟩

/-- C3: `Prefix("")` and `Prefix("/")` are no-ops: the whole state (the
prefix, the seven cached paths, the world and the trace) is what it was
before, and `GetPrefix()` returns the same string. -/
theorem Prefix_empty_root_noop {W : Type} (s : State W) :
    Prefix "" s = s ∧ Prefix "/" s = s
    ∧ GetPrefix (Prefix "" s) = GetPrefix s ∧ GetPrefix (Prefix "/" s) = GetPrefix s := by
  have h1 : Prefix "" s = s := by
    unfold Prefix
    rw [if_pos (Or.inl rfl)]
  have h2 : Prefix "/" s = s := by
    unfold Prefix
    rw [if_pos (Or.inr rfl)]
  exact ⟨h1, h2, by rw [h1], by rw [h2]⟩

/-- C4: each of the five directory resolvers (`resolve os k` is `EtcDirPath`,
`RunDirPath`, `LogDirPath`, `LibDirPath` or `BinDirPath`), called twice in a
row, returns the same string both times; the second call leaves the state, the
world and the trace untouched (it performs no `os.MkdirAll`), and over the two
calls the trace grows by at most one `os.MkdirAll`. -/
theorem resolve_twice_memoized {W : Type} (os : OS W) (k : DirKind) (s : State W) :
    (resolve os k (resolve os k s).2).1 = (resolve os k s).1
    ∧ (resolve os k (resolve os k s).2).2 = (resolve os k s).2
    ∧ ∃ es, (resolve os k (resolve os k s).2).2.trace = s.trace ++ es
        ∧ mkdirCount es ≤ 1 := by
  have hne : (resolve os k s).2.cache k ≠ "" := by
    rw [resolve_cache]
    exact resolve_fst_ne_empty os k s
  have h2 : resolve os k (resolve os k s).2 = ((resolve os k s).2.cache k, (resolve os k s).2) :=
    resolve_cached os k _ hne
  refine ⟨?_, ?_, ?_⟩
  · rw [h2, resolve_cache]
  · rw [h2]
  · rw [h2]
    exact resolve_trace os k s

/-- C10: `ContainsString(s, e)` is true exactly when some element of `s`
equals `e`; in particular it is false for the empty list. -/
theorem ContainsString_iff_mem (s : List String) (e : String) :
    (ContainsString s e = true ↔ ∃ a, a ∈ s ∧ a = e) ∧ ContainsString [] e = false := by
  refine ⟨?_, rfl⟩
  induction s with
  | nil => simp [ContainsString]
  | cons a t ih =>
    unfold ContainsString
    by_cases h : a = e
    · rw [if_pos h]
      exact ⟨fun _ => ⟨a, List.mem_cons_self a t, h⟩, fun _ => rfl⟩
    · rw [if_neg h, ih]
      constructor
      · rintro ⟨b, hb, hbe⟩
        exact ⟨b, List.mem_cons_of_mem a hb, hbe⟩
      · rintro ⟨b, hb, hbe⟩
        cases List.mem_cons.mp hb with
        | inl hba => exact absurd (hba ▸ hbe) h
        | inr hbt => exact ⟨b, hbt, hbe⟩

/-- C2: a cached path is never stale.  In every state reached from the initial
state (any value of `POLLY_HOME`, all seven caches empty) by any sequence of
`Prefix(p)`, the five directory resolvers, `PidFilePath` and `BinFilePath`,
each cache is empty or holds the path derived from the current prefix. -/
theorem reachable_caches_fresh {W : Type} (os : OS W) (env : String)
    (parts : String × String × String) (w : W) (ops : List Op) :
    let s := run os (init env parts w) ops
    (s.etcDirPath = "" ∨ s.etcDirPath = GetPrefix s ++ "/etc/polly")
    ∧ (s.runDirPath = "" ∨ s.runDirPath = GetPrefix s ++ "/var/run/polly")
    ∧ (s.logDirPath = "" ∨ s.logDirPath = GetPrefix s ++ "/var/log/polly")
    ∧ (s.libDirPath = "" ∨ s.libDirPath = GetPrefix s ++ "/var/lib/polly")
    ∧ (s.binDirPath = "" ∨ s.binDirPath = GetPrefix s ++ "/usr/bin")
    ∧ (s.pidFilePath = "" ∨ s.pidFilePath = GetPrefix s ++ "/var/run/polly/polly.pid")
    ∧ (s.binFilePath = "" ∨ s.binFilePath = GetPrefix s ++ "/usr/bin/polly") :=
  Fresh_run os ops (init env parts w)
    ⟨Or.inl rfl, Or.inl rfl, Or.inl rfl, Or.inl rfl, Or.inl rfl, Or.inl rfl, Or.inl rfl⟩

/-- C6: `WritePidFile(pid)` makes one file write, to `PidFilePath()`: for
`pid < 0` its text is the decimal text of `os.Getpid()`, not of the argument;
for `pid ≥ 0` it is the decimal text of `pid` itself. -/
theorem WritePidFile_text {W : Type} (os : OS W) (s : State W) (pid : Int) :
    (pid < 0 →
      (WritePidFile os pid s).2.trace = (PidFilePath os s).2.trace ++
        [Effect.writeStringToFile (sprintfD (os.getpid s.world)) (PidFilePath os s).1]
      ∧ (WritePidFile os pid s).2.world =
        (os.writeStringToFile (sprintfD (os.getpid s.world)) (PidFilePath os s).1
          (PidFilePath os s).2.world).2)
    ∧ (0 ≤ pid →
      (WritePidFile os pid s).2.trace = (PidFilePath os s).2.trace ++
        [Effect.writeStringToFile (sprintfD pid) (PidFilePath os s).1]
      ∧ (WritePidFile os pid s).2.world =
        (os.writeStringToFile (sprintfD pid) (PidFilePath os s).1
          (PidFilePath os s).2.world).2) := by
  constructor
  · intro h
    have hsnd := WritePidFile_snd os pid s
    rw [if_pos h] at hsnd
    rw [hsnd]
    exact ⟨rfl, rfl⟩
  · intro h
    have hsnd := WritePidFile_snd os pid s
    rw [if_neg (not_lt.mpr h)] at hsnd
    rw [hsnd]
    exact ⟨rfl, rfl⟩

/-- C6 at `pid = -1`, in a process whose ID is 4242: the text written is
`4242`. -/
theorem WritePidFile_text_witness :
    ((-1 : Int) < 0)
    ∧ memOS.getpid memStart.world = 4242
    ∧ sprintfD 4242 = "4242"
    ∧ (WritePidFile memOS (-1) memStart).2.trace = (PidFilePath memOS memStart).2.trace ++
        [Effect.writeStringToFile (sprintfD (memOS.getpid memStart.world))
          (PidFilePath memOS memStart).1] :=
  ⟨by decide, rfl, by simp [sprintfD, formatBits, digitChar],
   ((WritePidFile_text memOS memStart (-1)).1 (by decide)).1⟩

/-- C8 as stated fails: started with `POLLY_HOME` equal to `/`, `GetPrefix()`
returns `/`, not the empty string, and `EtcDirPath()` returns `//etc/polly`,
not the `/etc/polly` it returns when `POLLY_HOME` is empty. -/
theorem init_root_not_normalized :
    GetPrefix (init "/" ("/usr/bin", "polly", "/usr/bin/polly") ()) = "/"
    ∧ GetPrefix (init "/" ("/usr/bin", "polly", "/usr/bin/polly") ()) ≠ ""
    ∧ (EtcDirPath denyOS (init "/" ("/usr/bin", "polly", "/usr/bin/polly") ())).1 = "//etc/polly"
    ∧ (EtcDirPath denyOS (init "" ("/usr/bin", "polly", "/usr/bin/polly") ())).1 = "/etc/polly"
    ∧ (EtcDirPath denyOS (init "/" ("/usr/bin", "polly", "/usr/bin/polly") ())).1
        ≠ (EtcDirPath denyOS (init "" ("/usr/bin", "polly", "/usr/bin/polly") ())).1 := by
  refine ⟨rfl, by decide, by decide, by decide, by decide⟩

/-- C8, amended: the initial prefix is the value of `POLLY_HOME` as it is, with
no normalization.  `GetPrefix()` returns that value (so `/` for `/`) and each
directory resolver returns that value followed by its suffix (so `EtcDirPath()`
is `//etc/polly` for `/` and `/etc/polly` for the empty value); only
`IsPrefixed()` treats `/` like the empty value: it is false for both. -/
theorem init_prefix_verbatim {W : Type} (os : OS W) (env : String)
    (parts : String × String × String) (w : W) :
    GetPrefix (init env parts w) = env
    ∧ (EtcDirPath os (init env parts w)).1 = env ++ "/etc/polly"
    ∧ (RunDirPath os (init env parts w)).1 = env ++ "/var/run/polly"
    ∧ (LogDirPath os (init env parts w)).1 = env ++ "/var/log/polly"
    ∧ (LibDirPath os (init env parts w)).1 = env ++ "/var/lib/polly"
    ∧ (BinDirPath os (init env parts w)).1 = env ++ "/usr/bin"
    ∧ IsPrefixed (init "/" parts w) = false
    ∧ IsPrefixed (init "" parts w) = false := by
  refine ⟨rfl, ?_, ?_, ?_, ?_, ?_, by simp [IsPrefixed, init], by simp [IsPrefixed, init]⟩
  · exact (resolve_fst os .etc (init env parts w)).trans (if_pos rfl)
  · exact (resolve_fst os .run (init env parts w)).trans (if_pos rfl)
  · exact (resolve_fst os .log (init env parts w)).trans (if_pos rfl)
  · exact (resolve_fst os .lib (init env parts w)).trans (if_pos rfl)
  · exact (resolve_fst os .bin (init env parts w)).trans (if_pos rfl)

/-- C9 as stated fails for the lib and bin directories: on an operating system
where directory creation fails and no path is readable, `LibDirPath()` and
`BinDirPath()`, computing an uncached path, emit no warning; their only effect
is the `os.MkdirAll` call. -/
theorem LibDirPath_BinDirPath_no_warning :
    denyStart.libDirPath = "" ∧ denyStart.binDirPath = ""
    ∧ accessFailed denyOS DirKind.lib denyStart = true
    ∧ accessFailed denyOS DirKind.bin denyStart = true
    ∧ (LibDirPath denyOS denyStart).2.trace = [Effect.mkdirAll "/var/lib/polly" 0o755]
    ∧ (BinDirPath denyOS denyStart).2.trace = [Effect.mkdirAll "/usr/bin" 0o755]
    ∧ (LibDirPath denyOS denyStart).2.trace.any Effect.isWarning = false
    ∧ (BinDirPath denyOS denyStart).2.trace.any Effect.isWarning = false := by
  refine ⟨rfl, rfl, by decide, by decide, by decide, by decide, by decide, by decide⟩

/-- C9, amended: a resolver that computes an uncached path caches and returns
`prefix + suffix` whatever the operating system answers.  For the etc, run and
log directories, when directory creation fails or the path is not readable
(or, for run and log, not writable), it emits one warning after the
`os.MkdirAll` call, carrying the creation error.  For the lib and bin
directories it makes no access check and emits no warning: its only effect is
the `os.MkdirAll` call. -/
theorem resolve_uncached_soft_failure {W : Type} (os : OS W) (k : DirKind) (s : State W)
    (hc : s.cache k = "") :
    (resolve os k s).1 = s.prefix_ ++ k.suffix
    ∧ (resolve os k s).2.cache k = s.prefix_ ++ k.suffix
    ∧ ((k = DirKind.etc ∨ k = DirKind.run ∨ k = DirKind.log) → accessFailed os k s = true →
        ∃ msg fields, (resolve os k s).2.trace = s.trace ++
          [Effect.mkdirAll (s.prefix_ ++ k.suffix) dirPerm,
           Effect.warning msg (os.mkdirAll (s.prefix_ ++ k.suffix) dirPerm s.world).1 fields])
    ∧ ((k = DirKind.lib ∨ k = DirKind.bin) →
        (resolve os k s).2.trace = s.trace ++ [Effect.mkdirAll (s.prefix_ ++ k.suffix) dirPerm]) := by
  have h1 : (resolve os k s).1 = s.prefix_ ++ k.suffix := by
    rw [resolve_fst, if_pos hc]
  refine ⟨h1, by rw [resolve_cache, h1], ?_, ?_⟩
  · intro hk hfail
    cases k with
    | etc =>
      simp only [State.cache] at hc
      simp only [accessFailed, DirKind.suffix, Bool.or_eq_true, Bool.and_eq_true,
        Bool.not_eq_true', decide_eq_true_eq, Option.isSome_iff_ne_none] at hfail
      have hcond : (os.mkdirAll (s.prefix_ ++ etcDirPathSuffix) dirPerm s.world).1 ≠ none
          ∨ (!readable os (s.prefix_ ++ etcDirPathSuffix)
              (os.mkdirAll (s.prefix_ ++ etcDirPathSuffix) dirPerm s.world).2) = true := by
        rcases hfail with (h | h) | h
        · exact Or.inl h
        · exact Or.inr (by simp [h])
        · exact absurd h.1 (by simp)
      refine ⟨"could not access etc dir", [], ?_⟩
      simp only [resolve, EtcDirPath, State.emit, if_pos hc, if_pos hcond, DirKind.suffix,
        List.append_assoc]
      rfl
    | run =>
      simp only [State.cache] at hc
      simp only [accessFailed, DirKind.suffix, Bool.or_eq_true, Bool.and_eq_true,
        Bool.not_eq_true', decide_eq_true_eq, Option.isSome_iff_ne_none] at hfail
      have hcond : (os.mkdirAll (s.prefix_ ++ runDirPathSuffix) dirPerm s.world).1 ≠ none
          ∨ (!readable os (s.prefix_ ++ runDirPathSuffix)
              (os.mkdirAll (s.prefix_ ++ runDirPathSuffix) dirPerm s.world).2) = true
          ∨ (!writable os (s.prefix_ ++ runDirPathSuffix)
              (os.mkdirAll (s.prefix_ ++ runDirPathSuffix) dirPerm s.world).2) = true := by
        rcases hfail with (h | h) | h
        · exact Or.inl h
        · exact Or.inr (Or.inl (by simp [h]))
        · exact Or.inr (Or.inr (by simp [h.2]))
      refine ⟨"missing r|w access run dir", [("runDirPath", s.prefix_ ++ runDirPathSuffix)], ?_⟩
      simp only [resolve, RunDirPath, State.emit, if_pos hc, if_pos hcond, DirKind.suffix,
        List.append_assoc]
      rfl
    | log =>
      simp only [State.cache] at hc
      simp only [accessFailed, DirKind.suffix, Bool.or_eq_true, Bool.and_eq_true,
        Bool.not_eq_true', decide_eq_true_eq, Option.isSome_iff_ne_none] at hfail
      have hcond : (os.mkdirAll (s.prefix_ ++ logDirPathSuffix) dirPerm s.world).1 ≠ none
          ∨ (!readable os (s.prefix_ ++ logDirPathSuffix)
              (os.mkdirAll (s.prefix_ ++ logDirPathSuffix) dirPerm s.world).2) = true
          ∨ (!writable os (s.prefix_ ++ logDirPathSuffix)
              (os.mkdirAll (s.prefix_ ++ logDirPathSuffix) dirPerm s.world).2) = true := by
        rcases hfail with (h | h) | h
        · exact Or.inl h
        · exact Or.inr (Or.inl (by simp [h]))
        · exact Or.inr (Or.inr (by simp [h.2]))
      refine ⟨"missing r|w access log dir", [("logDirPath", s.prefix_ ++ logDirPathSuffix)], ?_⟩
      simp only [resolve, LogDirPath, State.emit, if_pos hc, if_pos hcond, DirKind.suffix,
        List.append_assoc]
      rfl
    | lib => exact absurd hk (by decide)
    | bin => exact absurd hk (by decide)
  · intro hk
    cases k with
    | etc => exact absurd hk (by decide)
    | run => exact absurd hk (by decide)
    | log => exact absurd hk (by decide)
    | lib =>
      simp only [State.cache] at hc
      simp only [resolve, LibDirPath, State.emit, if_pos hc, DirKind.suffix]
    | bin =>
      simp only [State.cache] at hc
      simp only [resolve, BinDirPath, State.emit, if_pos hc, DirKind.suffix]

/-- C9, amended, at the etc directory of the initial state, on an operating
system that refuses every call: the path `/etc/polly` is returned and cached,
and a warning follows the `os.MkdirAll` call. -/
theorem resolve_uncached_soft_failure_witness :
    denyStart.cache DirKind.etc = ""
    ∧ accessFailed denyOS DirKind.etc denyStart = true
    ∧ (resolve denyOS DirKind.etc denyStart).1 = "/etc/polly"
    ∧ (resolve denyOS DirKind.etc denyStart).2.trace =
        [Effect.mkdirAll "/etc/polly" 0o755,
         Effect.warning "could not access etc dir" (some ⟨"permission denied"⟩) []]
    ∧ ∃ msg fields, (resolve denyOS DirKind.etc denyStart).2.trace = denyStart.trace ++
        [Effect.mkdirAll (denyStart.prefix_ ++ DirKind.etc.suffix) dirPerm,
         Effect.warning msg
           (denyOS.mkdirAll (denyStart.prefix_ ++ DirKind.etc.suffix) dirPerm denyStart.world).1
           fields] :=
  ⟨rfl, by decide, by decide, by decide,
   (resolve_uncached_soft_failure denyOS DirKind.etc denyStart rfl).2.2.1
     (Or.inl rfl) (by decide)⟩

/-- C5 fails on the code.  With a PID file left by an earlier run that holds
`99999` and a newline, `WritePidFile(42)` succeeds, the file then holds
`42999` and a newline, not the decimal text of 42, and `ReadPidFile()`,
called next, returns `(42999, nil)`, not `(42, nil)`. -/
theorem WritePidFile_over_longer_file :
    pidFileContent (withGotil plainOS) (pidFileState (Node.file "99999\n" true true))
      = some "99999\n"
    ∧ (WritePidFile (withGotil plainOS) 42 (pidFileState (Node.file "99999\n" true true))).1 = none
    ∧ pidFileContent (withGotil plainOS)
        (WritePidFile (withGotil plainOS) 42 (pidFileState (Node.file "99999\n" true true))).2
      = some "42999\n"
    ∧ (ReadPidFile (withGotil plainOS)
        (WritePidFile (withGotil plainOS) 42 (pidFileState (Node.file "99999\n" true true))).2).1
      = (42999, none) := by
  have h42 : sprintfD 42 = "42" := by simp [sprintfD, formatBits, digitChar]
  have hw := WritePidFile_snd (withGotil plainOS) 42 (pidFileState (Node.file "99999\n" true true))
  rw [if_neg (by decide), h42] at hw
  refine ⟨by decide, rfl, ?_, ?_⟩
  · rw [hw]
    decide
  · rw [hw]
    decide

/-- C7 as stated fails: a PID file that holds `12`, a newline and `34` was
read and its contents are not a valid base-10 integer, yet `ReadPidFile()`
returns `(12, nil)` and no parse error; and when `PidFilePath()` names a
directory, which cannot be read, the error returned is the parse error of the
empty text and not an I/O error. -/
theorem ReadPidFile_reads_first_line_only :
    pidFileContent (withGotil plainOS) (pidFileState (Node.file "12\n34" true true))
      = some "12\n34"
    ∧ validBase10Int "12\n34" = false
    ∧ (ReadPidFile (withGotil plainOS) (pidFileState (Node.file "12\n34" true true))).1
      = (12, none)
    ∧ isDirectory (pidFileState (Node.dir true)).world "/var/run/polly/polly.pid" = true
    ∧ (ReadPidFile (withGotil plainOS) (pidFileState (Node.dir true))).1
      = (-1, some (Error.num ⟨"Atoi", "", NumErrorKind.errSyntax⟩)) := by
  refine ⟨by decide, by decide, by decide, by decide, by decide⟩

/-- C7, amended: when `PidFilePath()` does not name a directory, `ReadPidFile`
returns `-1` with an I/O error exactly when the PID file cannot be opened for
reading (there is no such file, or no permission); it returns `-1` with a
`*strconv.NumError`, a value distinct from every I/O error, exactly when the
file was opened and the first line of its contents (for example
`not-a-number`) is not a valid base-10 integer; otherwise, exactly when the
file was opened and its first line is a valid base-10 integer, it returns the
integer that line spells and no error.  The operating system `os` is
arbitrary apart from the two `gotil` file helpers. -/
theorem ReadPidFile_first_line (os : OS FileSys) (s : State FileSys)
    (hnd : isDirectory (PidFilePath (withGotil os) s).2.world
      (PidFilePath (withGotil os) s).1 = false) :
    ((∃ e, (ReadPidFile (withGotil os) s).1 = (-1, some (Error.os e)))
        ↔ pidFileContent (withGotil os) s = none)
    ∧ ((∃ e, (ReadPidFile (withGotil os) s).1 = (-1, some (Error.num e)))
        ↔ ∃ c, pidFileContent (withGotil os) s = some c
            ∧ validBase10Int (firstLine c) = false)
    ∧ (∀ e e1, Error.os e ≠ Error.num e1)
    ∧ ((ReadPidFile (withGotil os) s).1.2 = none
        ↔ ∃ c, pidFileContent (withGotil os) s = some c
            ∧ validBase10Int (firstLine c) = true)
    ∧ (∀ c, pidFileContent (withGotil os) s = some c → validBase10Int (firstLine c) = true →
        (ReadPidFile (withGotil os) s).1 = (base10Value (firstLine c), none))
    ∧ validBase10Int (firstLine "not-a-number") = false := by
  have hfst := ReadPidFile_fst (withGotil os) s
  have hrd : (withGotil os).readFileToString (PidFilePath (withGotil os) s).1
      (PidFilePath (withGotil os) s).2.world
      = ReadFileToString (PidFilePath (withGotil os) s).1 (PidFilePath (withGotil os) s).2.world :=
    rfl
  rw [hrd] at hfst
  have hdistinct : ∀ (e : OSError) (e1 : NumError), Error.os e ≠ Error.num e1 := by
    intro e e1 h
    cases h
  unfold pidFileContent
  cases hoc : openedContent (PidFilePath (withGotil os) s).2.world (PidFilePath (withGotil os) s).1 with
  | none =>
    obtain ⟨e0, he0⟩ := ReadFileToString_unopened _ _ hoc hnd
    rw [he0] at hfst
    simp only at hfst
    rw [hfst]
    refine ⟨?_, ?_, hdistinct, ?_, ?_, by decide⟩
    · exact ⟨fun _ => rfl, fun _ => ⟨e0, rfl⟩⟩
    · constructor
      · rintro ⟨e, he⟩
        simp at he
      · rintro ⟨c, hc, _⟩
        cases hc
    · constructor
      · intro h
        simp at h
      · rintro ⟨c, hc, _⟩
        cases hc
    · intro c hc
      cases hc
  | some c =>
    have hread := ReadFileToString_opened _ _ c hoc
    rw [hread] at hfst
    simp only at hfst
    have hspec := Atoi_spec (firstLine c)
    refine ⟨?_, ?_, hdistinct, ?_, ?_, by decide⟩
    · constructor
      · rintro ⟨e, he⟩
        rw [hfst] at he
        cases ha : (Atoi (firstLine c)).2 with
        | some e1 => simp [ha] at he
        | none => simp [ha] at he
      · intro h
        cases h
    · constructor
      · rintro ⟨e, he⟩
        refine ⟨c, rfl, ?_⟩
        cases hv : validBase10Int (firstLine c) with
        | false => rfl
        | true =>
          rw [hfst, hspec.1.mpr hv] at he
          simp at he
      · rintro ⟨c1, hc1, hv⟩
        cases hc1
        cases ha : (Atoi (firstLine c)).2 with
        | some e1 =>
          rw [hfst]
          exact ⟨e1, by simp [ha]⟩
        | none =>
          rw [hspec.1.mp ha] at hv
          cases hv
    · constructor
      · intro h
        refine ⟨c, rfl, ?_⟩
        rw [hfst] at h
        cases ha : (Atoi (firstLine c)).2 with
        | some e1 => simp [ha] at h
        | none => exact hspec.1.mp ha
      · rintro ⟨c1, hc1, hv⟩
        cases hc1
        rw [hfst]
        simp [hspec.1.mpr hv]
    · intro c1 hc1 hv
      cases hc1
      rw [hfst]
      simp [hspec.1.mpr hv, hspec.2 hv]

/-- C7, amended, at a PID file that holds `1234` and a newline: the file is
opened, its first line `1234` is a valid base-10 integer, and `ReadPidFile()`
returns `(1234, nil)`. -/
theorem ReadPidFile_first_line_witness :
    isDirectory (PidFilePath (withGotil plainOS) (pidFileState (Node.file "1234\n" true true))).2.world
      (PidFilePath (withGotil plainOS) (pidFileState (Node.file "1234\n" true true))).1 = false
    ∧ pidFileContent (withGotil plainOS) (pidFileState (Node.file "1234\n" true true))
      = some "1234\n"
    ∧ firstLine "1234\n" = "1234"
    ∧ validBase10Int (firstLine "1234\n") = true
    ∧ base10Value (firstLine "1234\n") = 1234
    ∧ (ReadPidFile (withGotil plainOS) (pidFileState (Node.file "1234\n" true true))).1
      = (base10Value (firstLine "1234\n"), none) :=
  ⟨by decide, by decide, by decide, by decide, by decide,
   (ReadPidFile_first_line plainOS (pidFileState (Node.file "1234\n" true true))
      (by decide)).2.2.2.2.1 "1234\n" (by decide) (by decide)⟩

end util
